import Mathlib

/-!
Verification of the apptrace span/annotation core (span.go and its
httptrace test file) against its specification.

Modelling conventions:
* Go strings and `[]byte` values are flat byte sequences; for the SpanID
  codec we model them as `List Char` (all characters involved are ASCII),
  and for annotation keys/values as Lean `String` (Go's `string([]byte)`
  conversion is the identity on the underlying bytes).
* `ID` is Go's `uint64`; we model it as `Nat` and carry explicit
  `< 2 ^ 64` bounds where overflow matters.
* Randomness (`generateID`) is modelled by passing the generated value as
  an explicit argument.
* Fallible Go functions returning `(T, error)` become `Option`/`Except`.
-/

/-- Model of the Go `ID` type (`uint64`). Values are Nats; bounds
`< 2 ^ 64` are stated explicitly where they matter. -/
abbrev ID := Nat

/-- Hex digit character for a value `d < 16`, lowercase as produced by
Go's `%x` formatting. -/
def hexDigit (d : Nat) : Char :=
  if d < 10 then Char.ofNat (48 + d) else Char.ofNat (97 + (d - 10))

/-- Big-endian list of `k` hex digit characters encoding `n % 16 ^ k`. -/
def hexChars : Nat → Nat → List Char
  | 0, _ => []
  | k + 1, n => hexChars k (n / 16) ++ [hexDigit (n % 16)]

/-- Modelled from the spec: the canonical string form of an `ID` is
lowercase hexadecimal, zero-padded to 16 characters (Go `%016x`); the
file `id.go` defining `ID.String` is not under `src/`. -/
def idStr (n : ID) : List Char := hexChars 16 n

/-- Numeric value of a hex digit character, `none` when the character is
not a hex digit (accepting both lowercase and uppercase letters). -/
def hexVal? (c : Char) : Option Nat :=
  if 48 ≤ c.toNat ∧ c.toNat ≤ 57 then some (c.toNat - 48)
  else if 97 ≤ c.toNat ∧ c.toNat ≤ 102 then some (c.toNat - 87)
  else if 65 ≤ c.toNat ∧ c.toNat ≤ 70 then some (c.toNat - 55)
  else none

/-- Accumulating big-endian hex parse; fails on the first non-hex
character. -/
def parseHexChars : List Char → Nat → Option Nat
  | [], acc => some acc
  | c :: cs, acc =>
    match hexVal? c with
    | some v => parseHexChars cs (acc * 16 + v)
    | none => none

/-- Modelled from the spec: `ParseID` is a strict 16-hex-digit decode;
any other length or any non-hex character fails (the file `id.go`
defining `ParseID` is not under `src/`). -/
def ParseID (cs : List Char) : Option ID :=
  if cs.length = 16 then parseHexChars cs 0 else none

/-- The delimiter used to concatenate a SpanID's components
(Go constant `SpanIDDelimiter = "/"`, a single ASCII character). -/
def SpanIDDelimiter : Char := '/'

/-- Model of Go `strings.Split(s, "/")` for a one-character separator:
the list of (possibly empty) chunks between delimiter occurrences. -/
def splitChar : List Char → List (List Char)
  | [] => [[]]
  | c :: cs =>
    if c = SpanIDDelimiter then [] :: splitChar cs
    else
      match splitChar cs with
      | [] => [[c]]
      | p :: ps => (c :: p) :: ps

/-- A SpanID refers to a single span (struct `SpanID` in span.go). -/
structure SpanID where
  Trace : ID
  Span : ID
  Parent : ID
deriving DecidableEq, Repr

/-- ErrBadSpanID is returned when the span ID cannot be parsed. -/
def ErrBadSpanID : String := "bad span ID"

/-- String returns the SpanID as a slash-separated, set of hex-encoded
parameters (root, ID, parent). If the SpanID has no parent, that value
is elided (method `SpanID.String` in span.go). -/
def SpanID.String (id : SpanID) : List Char :=
  if id.Parent = 0 then
    idStr id.Trace ++ SpanIDDelimiter :: idStr id.Span
  else
    idStr id.Trace ++ SpanIDDelimiter :: (idStr id.Span ++ SpanIDDelimiter :: idStr id.Parent)

/-- IsRoot returns whether id is the root ID of a trace
(method `SpanID.IsRoot` in span.go: `id.Parent == 0`). -/
def SpanID.IsRoot (id : SpanID) : Bool :=
  id.Parent == 0

/-- NewRootSpanID generates a new span ID for a root span
(span.go). The two fresh values produced by `generateID()` are passed
explicitly; the `Parent` field is left at its zero value. -/
def NewRootSpanID (genTrace genSpan : ID) : SpanID :=
  { Trace := genTrace, Span := genSpan, Parent := 0 }

/-- NewSpanID returns a new ID for a span which is the child of the
given parent ID (span.go). The fresh value produced by `generateID()`
is passed explicitly. -/
def NewSpanID (parent : SpanID) (genSpan : ID) : SpanID :=
  { Trace := parent.Trace, Span := genSpan, Parent := parent.Span }

/-- ParseSpanID parses the given string as a slash-separated set of
parameters (span.go). Go checks `len(parts)` is 2 or 3, parses
`parts[0]`, `parts[1]` and, when present, `parts[2]`, returning the
sentinel `ErrBadSpanID` on any failure; an absent third component
leaves `Parent` at zero. -/
def ParseSpanID (s : List Char) : Except String SpanID :=
  match splitChar s with
  | [p0, p1] =>
    match ParseID p0, ParseID p1 with
    | some root, some id => .ok { Trace := root, Span := id, Parent := 0 }
    | _, _ => .error ErrBadSpanID
  | [p0, p1, p2] =>
    match ParseID p0, ParseID p1, ParseID p2 with
    | some root, some id, some parent => .ok { Trace := root, Span := id, Parent := parent }
    | _, _, _ => .error ErrBadSpanID
  | _ => .error ErrBadSpanID

/-! ### Lemmas about the hex codec -/

theorem hexVal_hexDigit : ∀ d : Nat, d < 16 → hexVal? (hexDigit d) = some d := by
  decide

theorem hexDigit_ne_delim : ∀ d : Nat, d < 16 → hexDigit d ≠ SpanIDDelimiter := by
  decide

theorem hexChars_length : ∀ (k n : Nat), (hexChars k n).length = k := by
  intro k
  induction k with
  | zero => intro n; rfl
  | succ k ih =>
    intro n
    simp [hexChars, ih]

theorem delim_not_mem_hexChars : ∀ (k n : Nat), SpanIDDelimiter ∉ hexChars k n := by
  intro k
  induction k with
  | zero => intro n; simp [hexChars]
  | succ k ih =>
    intro n
    simp only [hexChars, List.mem_append, List.mem_singleton]
    rintro (h | h)
    · exact ih (n / 16) h
    · exact hexDigit_ne_delim (n % 16) (Nat.mod_lt _ (by norm_num)) h.symm

theorem parseHexChars_append (xs ys : List Char) (acc : Nat) :
    parseHexChars (xs ++ ys) acc =
      (parseHexChars xs acc).bind (fun a => parseHexChars ys a) := by
  induction xs generalizing acc with
  | nil => rfl
  | cons c cs ih =>
    simp only [List.cons_append, parseHexChars]
    cases hexVal? c with
    | none => rfl
    | some v => exact ih _

theorem parseHexChars_hexChars (k : Nat) :
    ∀ n acc : Nat, n < 16 ^ k →
      parseHexChars (hexChars k n) acc = some (acc * 16 ^ k + n) := by
  induction k with
  | zero =>
    intro n acc hn
    interval_cases n
    simp [hexChars, parseHexChars]
  | succ k ih =>
    intro n acc hn
    have hdiv : n / 16 < 16 ^ k := by
      rw [Nat.div_lt_iff_lt_mul (by norm_num)]
      calc n < 16 ^ (k + 1) := hn
        _ = 16 ^ k * 16 := by rw [pow_succ]
    rw [hexChars, parseHexChars_append, ih (n / 16) acc hdiv]
    simp only [Option.some_bind, parseHexChars,
      hexVal_hexDigit (n % 16) (Nat.mod_lt _ (by norm_num))]
    congr 1
    have h1 : (acc * 16 ^ k + n / 16) * 16 + n % 16
        = acc * (16 ^ k * 16) + (16 * (n / 16) + n % 16) := by ring
    rw [h1, Nat.div_add_mod, ← pow_succ]

theorem ParseID_idStr (n : ID) (hn : n < 2 ^ 64) : ParseID (idStr n) = some n := by
  have h16 : (16 : Nat) ^ 16 = 2 ^ 64 := by norm_num
  rw [ParseID, idStr, if_pos (hexChars_length 16 n),
    parseHexChars_hexChars 16 n 0 (by rw [h16]; exact hn)]
  simp

theorem parseHexChars_isSome (cs : List Char) (acc : Nat) :
    (parseHexChars cs acc).isSome = cs.all (fun c => (hexVal? c).isSome) := by
  induction cs generalizing acc with
  | nil => rfl
  | cons c rest ih =>
    simp only [parseHexChars, List.all_cons]
    cases hv : hexVal? c with
    | none => simp [hv]
    | some v => simp [hv, ih]

/-- A component is a valid 16-hex-digit identifier: exactly 16
characters, all of them hex digits. -/
def isHex16 (cs : List Char) : Bool :=
  cs.length == 16 && cs.all (fun c => (hexVal? c).isSome)

theorem ParseID_isSome (cs : List Char) : (ParseID cs).isSome = isHex16 cs := by
  rw [ParseID, isHex16]
  by_cases h : cs.length = 16
  · rw [if_pos h, parseHexChars_isSome]
    simp [h]
  · rw [if_neg h]
    simp [h]

/-! ### Lemmas about splitting -/

theorem splitChar_no_delim : ∀ a : List Char, SpanIDDelimiter ∉ a → splitChar a = [a] := by
  intro a
  induction a with
  | nil => intro _; rfl
  | cons c cs ih =>
    intro h
    have hc : c ≠ SpanIDDelimiter := fun hc => h (hc ▸ List.mem_cons_self c cs)
    have hcs : SpanIDDelimiter ∉ cs := fun hm => h (List.mem_cons_of_mem c hm)
    rw [splitChar, if_neg hc, ih hcs]

theorem splitChar_append_cons (a rest : List Char) (h : SpanIDDelimiter ∉ a) :
    splitChar (a ++ SpanIDDelimiter :: rest) = a :: splitChar rest := by
  induction a with
  | nil => simp [splitChar]
  | cons c cs ih =>
    have hc : c ≠ SpanIDDelimiter := fun hc => h (hc ▸ List.mem_cons_self c cs)
    have hcs : SpanIDDelimiter ∉ cs := fun hm => h (List.mem_cons_of_mem c hm)
    rw [List.cons_append, splitChar, if_neg hc, ih hcs]

theorem delim_not_mem_idStr (n : ID) : SpanIDDelimiter ∉ idStr n :=
  delim_not_mem_hexChars 16 n

theorem splitChar_spanString (s : SpanID) :
    splitChar s.String =
      if s.Parent = 0 then [idStr s.Trace, idStr s.Span]
      else [idStr s.Trace, idStr s.Span, idStr s.Parent] := by
  rw [SpanID.String]
  by_cases h : s.Parent = 0
  · rw [if_pos h, if_pos h, splitChar_append_cons _ _ (delim_not_mem_idStr _),
      splitChar_no_delim _ (delim_not_mem_idStr _)]
  · rw [if_neg h, if_neg h, splitChar_append_cons _ _ (delim_not_mem_idStr _),
      splitChar_append_cons _ _ (delim_not_mem_idStr _),
      splitChar_no_delim _ (delim_not_mem_idStr _)]

/-- C1: for every SpanID `s` (any values of Trace, Span, Parent,
including `Parent = 0`), `ParseSpanID (s.String)` succeeds and returns a
SpanID equal to `s`, and `s.IsRoot` returns `true` iff `s.Parent = 0`. -/
theorem spanID_string_roundtrip_isRoot (s : SpanID)
    (ht : s.Trace < 2 ^ 64) (hs : s.Span < 2 ^ 64) (hp : s.Parent < 2 ^ 64) :
    ParseSpanID s.String = .ok s ∧ (s.IsRoot = true ↔ s.Parent = 0) := by
  constructor
  · have hsplit := splitChar_spanString s
    by_cases h : s.Parent = 0
    · rw [if_pos h] at hsplit
      simp only [ParseSpanID, hsplit, ParseID_idStr _ ht, ParseID_idStr _ hs, ← h]
    · rw [if_neg h] at hsplit
      simp only [ParseSpanID, hsplit, ParseID_idStr _ ht, ParseID_idStr _ hs,
        ParseID_idStr _ hp]
  · simp [SpanID.IsRoot]

/-- Witness for C1 at the concrete SpanID (1, 2, 3). -/
theorem spanID_string_roundtrip_isRoot_witness :
    ParseSpanID (SpanID.String { Trace := 1, Span := 2, Parent := 3 }) =
      .ok { Trace := 1, Span := 2, Parent := 3 } ∧
    (SpanID.IsRoot { Trace := 1, Span := 2, Parent := 3 } = true ↔
      SpanID.Parent { Trace := 1, Span := 2, Parent := 3 } = 0) :=
  spanID_string_roundtrip_isRoot { Trace := 1, Span := 2, Parent := 3 }
    (by norm_num) (by norm_num) (by norm_num)

theorem parseSpanID_ok_or_sentinel (s : List Char) :
    (∃ v, ParseSpanID s = .ok v) ∨ ParseSpanID s = .error ErrBadSpanID := by
  rcases h : splitChar s with _ | ⟨p0, _ | ⟨p1, _ | ⟨p2, _ | ⟨p3, r⟩⟩⟩⟩
  · right; simp [ParseSpanID, h]
  · right; simp [ParseSpanID, h]
  · cases hp0 : ParseID p0 with
    | none => right; simp [ParseSpanID, h, hp0]
    | some v0 =>
      cases hp1 : ParseID p1 with
      | none => right; simp [ParseSpanID, h, hp0, hp1]
      | some v1 =>
        left
        exact ⟨{ Trace := v0, Span := v1, Parent := 0 }, by simp [ParseSpanID, h, hp0, hp1]⟩
  · cases hp0 : ParseID p0 with
    | none => right; simp [ParseSpanID, h, hp0]
    | some v0 =>
      cases hp1 : ParseID p1 with
      | none => right; simp [ParseSpanID, h, hp0, hp1]
      | some v1 =>
        cases hp2 : ParseID p2 with
        | none => right; simp [ParseSpanID, h, hp0, hp1, hp2]
        | some v2 =>
          left
          exact ⟨{ Trace := v0, Span := v1, Parent := v2 },
            by simp [ParseSpanID, h, hp0, hp1, hp2]⟩
  · right; simp [ParseSpanID, h]

theorem isHex16_of_parse (p : List Char) (v : ID) (hp : ParseID p = some v) :
    isHex16 p = true := by
  rw [← ParseID_isSome, hp]; rfl

theorem not_isHex16_of_parse (p : List Char) (hp : ParseID p = none) :
    ¬ isHex16 p = true := by
  rw [← ParseID_isSome, hp]; simp

theorem parseSpanID_ok_iff (s : List Char) :
    (∃ v, ParseSpanID s = .ok v) ↔
      (((splitChar s).length = 2 ∨ (splitChar s).length = 3) ∧
        ∀ p ∈ splitChar s, isHex16 p = true) := by
  rcases h : splitChar s with _ | ⟨p0, _ | ⟨p1, _ | ⟨p2, _ | ⟨p3, r⟩⟩⟩⟩
  · constructor
    · rintro ⟨v, hv⟩; simp [ParseSpanID, h] at hv
    · rintro ⟨hl, -⟩; simp at hl
  · constructor
    · rintro ⟨v, hv⟩; simp [ParseSpanID, h] at hv
    · rintro ⟨hl, -⟩; simp at hl
  · constructor
    · rintro ⟨v, hv⟩
      cases hp0 : ParseID p0 with
      | none => simp [ParseSpanID, h, hp0] at hv
      | some v0 =>
        cases hp1 : ParseID p1 with
        | none => simp [ParseSpanID, h, hp0, hp1] at hv
        | some v1 =>
          refine ⟨Or.inl (by simp), ?_⟩
          intro p hm
          rcases List.mem_pair.mp hm with rfl | rfl
          · exact isHex16_of_parse _ _ hp0
          · exact isHex16_of_parse _ _ hp1
    · rintro ⟨-, hall⟩
      have h0 := hall p0 (List.mem_cons_self _ _)
      have h1 := hall p1 (by simp)
      rw [← ParseID_isSome] at h0 h1
      rcases Option.isSome_iff_exists.mp h0 with ⟨v0, hp0⟩
      rcases Option.isSome_iff_exists.mp h1 with ⟨v1, hp1⟩
      exact ⟨{ Trace := v0, Span := v1, Parent := 0 }, by simp [ParseSpanID, h, hp0, hp1]⟩
  · constructor
    · rintro ⟨v, hv⟩
      cases hp0 : ParseID p0 with
      | none => simp [ParseSpanID, h, hp0] at hv
      | some v0 =>
        cases hp1 : ParseID p1 with
        | none => simp [ParseSpanID, h, hp0, hp1] at hv
        | some v1 =>
          cases hp2 : ParseID p2 with
          | none => simp [ParseSpanID, h, hp0, hp1, hp2] at hv
          | some v2 =>
            refine ⟨Or.inr (by simp), ?_⟩
            intro p hm
            simp only [List.mem_cons, List.not_mem_nil, or_false] at hm
            rcases hm with rfl | rfl | rfl
            · exact isHex16_of_parse _ _ hp0
            · exact isHex16_of_parse _ _ hp1
            · exact isHex16_of_parse _ _ hp2
    · rintro ⟨-, hall⟩
      have h0 := hall p0 (List.mem_cons_self _ _)
      have h1 := hall p1 (by simp)
      have h2 := hall p2 (by simp)
      rw [← ParseID_isSome] at h0 h1 h2
      rcases Option.isSome_iff_exists.mp h0 with ⟨v0, hp0⟩
      rcases Option.isSome_iff_exists.mp h1 with ⟨v1, hp1⟩
      rcases Option.isSome_iff_exists.mp h2 with ⟨v2, hp2⟩
      exact ⟨{ Trace := v0, Span := v1, Parent := v2 },
        by simp [ParseSpanID, h, hp0, hp1, hp2]⟩
  · constructor
    · rintro ⟨v, hv⟩; simp [ParseSpanID, h] at hv
    · rintro ⟨hl, -⟩; simp at hl

/-- C2: for every string whose slash-separated component count is not 2
or 3, or in which some used component is not a valid 16-hex-digit
identifier, `ParseSpanID` fails, and the error it returns is always the
single sentinel value `ErrBadSpanID` regardless of which component was
malformed; on success the error is nil (here: a well-formed string
parses to an `ok` result). -/
theorem parseSpanID_malformed_sentinel (s : List Char) :
    (¬ ((((splitChar s).length = 2 ∨ (splitChar s).length = 3) ∧
          ∀ p ∈ splitChar s, isHex16 p = true)) →
      ParseSpanID s = .error ErrBadSpanID) ∧
    (∀ e, ParseSpanID s = .error e → e = ErrBadSpanID) ∧
    ((((splitChar s).length = 2 ∨ (splitChar s).length = 3) ∧
        ∀ p ∈ splitChar s, isHex16 p = true) →
      ∃ v, ParseSpanID s = .ok v) := by
  refine ⟨?_, ?_, ?_⟩
  · intro hbad
    rcases parseSpanID_ok_or_sentinel s with hok | herr
    · exact absurd ((parseSpanID_ok_iff s).mp hok) hbad
    · exact herr
  · intro e he
    rcases parseSpanID_ok_or_sentinel s with ⟨v, hv⟩ | herr
    · rw [hv] at he; cases he
    · rw [herr] at he
      exact (Except.error.inj he).symm
  · exact (parseSpanID_ok_iff s).mpr

/-- Witness for C2: a one-component string fails with the sentinel, and
a well-formed two-component string parses successfully. -/
theorem parseSpanID_malformed_sentinel_witness :
    ParseSpanID ['g'] = .error ErrBadSpanID ∧
    ∃ v, ParseSpanID ("0000000000000001/0000000000000002".data) = .ok v :=
  ⟨(parseSpanID_malformed_sentinel ['g']).1 (by decide),
    (parseSpanID_malformed_sentinel ("0000000000000001/0000000000000002".data)).2.2
      (by decide)⟩

/-- C3: every SpanID returned by `NewRootSpanID` has `Parent = 0` (it is
a root), and for every parent SpanID `p`, `NewSpanID p` returns a SpanID
whose `Trace` equals `p.Trace` and whose `Parent` equals `p.Span` (the
fresh values produced by `generateID()` are passed explicitly). -/
theorem newRootSpanID_newSpanID_fields (genTrace genSpan g : ID) (parent : SpanID) :
    (NewRootSpanID genTrace genSpan).Parent = 0 ∧
    (NewRootSpanID genTrace genSpan).IsRoot = true ∧
    (NewSpanID parent g).Trace = parent.Trace ∧
    (NewSpanID parent g).Parent = parent.Span :=
  ⟨rfl, rfl, rfl, rfl⟩

/-- C4: for every SpanID `s`, `s.String` is the two-component string
`hex(Trace)/hex(Span)` when `s.Parent = 0`, and the three-component
string `hex(Trace)/hex(Span)/hex(Parent)` when `s.Parent ≠ 0` — the
parent component is omitted entirely for roots, never emitted as a
zero-filled third component. Stated by splitting the encoded string at
the delimiter. -/
theorem spanID_string_components (s : SpanID) :
    splitChar s.String =
      if s.Parent = 0 then [idStr s.Trace, idStr s.Span]
      else [idStr s.Trace, idStr s.Span, idStr s.Parent] :=
  splitChar_spanString s

/-- C9: the string-to-value-to-string round-trip does not hold: a
three-component string whose third component is the 16-zero hex
encoding of the zero identifier parses successfully, but the parsed
SpanID re-encodes in the two-component root form, a different string. -/
theorem parseSpanID_string_not_roundtrip (ta sp : Nat)
    (h1 : ta < 2 ^ 64) (h2 : sp < 2 ^ 64) :
    ParseSpanID (idStr ta ++ SpanIDDelimiter :: (idStr sp ++ SpanIDDelimiter :: idStr 0)) =
      .ok { Trace := ta, Span := sp, Parent := 0 } ∧
    SpanID.String { Trace := ta, Span := sp, Parent := 0 } ≠
      idStr ta ++ SpanIDDelimiter :: (idStr sp ++ SpanIDDelimiter :: idStr 0) := by
  constructor
  · have hsplit : splitChar
        (idStr ta ++ SpanIDDelimiter :: (idStr sp ++ SpanIDDelimiter :: idStr 0)) =
        [idStr ta, idStr sp, idStr 0] := by
      rw [splitChar_append_cons _ _ (delim_not_mem_idStr _),
        splitChar_append_cons _ _ (delim_not_mem_idStr _),
        splitChar_no_delim _ (delim_not_mem_idStr _)]
    simp only [ParseSpanID, hsplit, ParseID_idStr ta h1, ParseID_idStr sp h2,
      ParseID_idStr 0 (by norm_num)]
  · intro hcontra
    have hl := congrArg List.length hcontra
    simp [SpanID.String, idStr, List.length_append, List.length_cons,
      hexChars_length] at hl

/-- Witness for C9 at trace 1 and span 2, i.e. at the string
0000000000000001/0000000000000002/0000000000000000. -/
theorem parseSpanID_string_not_roundtrip_witness :
    ParseSpanID (idStr 1 ++ SpanIDDelimiter :: (idStr 2 ++ SpanIDDelimiter :: idStr 0)) =
      .ok { Trace := 1, Span := 2, Parent := 0 } ∧
    SpanID.String { Trace := 1, Span := 2, Parent := 0 } ≠
      idStr 1 ++ SpanIDDelimiter :: (idStr 2 ++ SpanIDDelimiter :: idStr 0) :=
  parseSpanID_string_not_roundtrip 1 2 (by norm_num) (by norm_num)

/-! ### Annotations (span.go) -/

/-- An annotation is an arbitrary key-value property on a span (struct
in span.go). `Value` is `[]byte` in Go, modelled as a Lean `String`
since Go's `string([]byte)` conversion is the identity on the
underlying bytes. -/
structure Annotation where
  Key : String
  Value : String
deriving DecidableEq, Repr

/-- Annotations is a list of annotations (on a span). -/
abbrev Annotations := List Annotation

/-- Special annotation key `name` (span.go). -/
def nameKey : String := "name"

/-- Key marker for schema annotations. -/
def schemaPrefix : String := "_schema:"

/-- Model of Go `strings.HasPrefix` over the underlying byte
sequences. -/
def goHasPrefix (p s : String) : Bool :=
  p.data.isPrefixOf s.data

/-- Model of Go byte-slicing `s[n:]` at an ASCII offset, as a drop on
the character list. -/
def goDrop (s : String) (n : Nat) : String :=
  String.mk (s.data.drop n)

/-- schemas returns a list of schema types in the annotations
(span.go): an accumulating loop that appends the key with the
`_schema:` marker stripped for each marker annotation. -/
def Annotations.schemas (as : Annotations) : List String :=
  as.foldl
    (fun acc a =>
      if goHasPrefix schemaPrefix a.Key then acc ++ [goDrop a.Key schemaPrefix.length]
      else acc)
    []

/-- get gets the value of the first annotation with the given key, or
none (Go nil) if none exists (span.go). -/
def Annotations.get (as : Annotations) (key : String) : Option String :=
  match as with
  | [] => none
  | a :: rest => if a.Key = key then some a.Value else Annotations.get rest key

/-- StringMap returns the annotations as a key-value map (span.go).
The Go map built by `m[a.Key] = string(a.Value)` in list order is
modelled as a function from keys to optional values, each annotation
overwriting its key's entry. -/
def Annotations.StringMap (as : Annotations) : String → Option String :=
  as.foldl (fun m a => fun k => if k = a.Key then some a.Value else m k) (fun _ => none)

/-- Span is a span ID and its annotations (span.go). -/
structure Span where
  ID : SpanID
  Annotations : List Annotation
deriving DecidableEq, Repr

/-- Loop of `Span.Name` (span.go): return the value of the first
annotation whose key is `nameKey`, or the empty string. -/
def spanNameLoop : List Annotation → String
  | [] => ""
  | a :: rest => if a.Key = nameKey then a.Value else spanNameLoop rest

/-- Name returns a span's name if it has a name annotation, and the
empty string otherwise (span.go). -/
def Span.Name (s : Span) : String :=
  spanNameLoop s.Annotations

theorem stringMap_append (l : Annotations) (a : Annotation) (key : String) :
    Annotations.StringMap (l ++ [a]) key =
      if key = a.Key then some a.Value else Annotations.StringMap l key := by
  rw [Annotations.StringMap, Annotations.StringMap, List.foldl_append]
  rfl

/-- C5: for every annotation list and key, `get key` returns the value
of the first annotation in list order whose `Key` equals the key
(`none`, Go nil, when no annotation matches), while `StringMap` maps
each key occurring in the list to the value of the last annotation in
list order with that key (last-write-wins on duplicates; an absent key
maps to `none`). -/
theorem annotations_get_first_stringMap_last (as : Annotations) (key : String) :
    as.get key = (as.find? (fun a => a.Key == key)).map (fun a => a.Value) ∧
    as.StringMap key = (as.reverse.find? (fun a => a.Key == key)).map (fun a => a.Value) := by
  constructor
  · induction as with
    | nil => rfl
    | cons a rest ih =>
      by_cases h : a.Key = key
      · simp [Annotations.get, List.find?, h]
      · have hb : (a.Key == key) = false := beq_eq_false_iff_ne.mpr h
        simp [Annotations.get, List.find?, h, hb, ih]
  · induction as using List.reverseRecOn with
    | nil => rfl
    | append_singleton l a ih =>
      rw [stringMap_append, List.reverse_append]
      by_cases h : key = a.Key
      · simp [List.find?, h]
      · have hb : (a.Key == key) = false := by
          simp [Ne.symm h]
        simp [List.find?, h, hb, ih]

theorem schemas_foldl_general (as : Annotations) (acc : List String) :
    as.foldl
        (fun acc a =>
          if goHasPrefix schemaPrefix a.Key then acc ++ [goDrop a.Key schemaPrefix.length]
          else acc)
        acc =
      acc ++ as.filterMap
        (fun a =>
          if goHasPrefix schemaPrefix a.Key then some (goDrop a.Key schemaPrefix.length)
          else none) := by
  induction as generalizing acc with
  | nil => simp
  | cons a rest ih =>
    by_cases h : goHasPrefix schemaPrefix a.Key = true
    · simp [List.foldl_cons, List.filterMap_cons, h, ih, List.append_assoc]
    · simp [List.foldl_cons, List.filterMap_cons, h, ih]

/-- C6: for every annotation list, `schemas` returns the schema names
obtained by taking the annotations whose key starts with the
`_schema:` prefix, stripping that prefix, and preserving first-seen
annotation-list order; annotations without the prefix contribute
nothing. -/
theorem annotations_schemas_filterMap (as : Annotations) :
    as.schemas =
      as.filterMap
        (fun a =>
          if goHasPrefix schemaPrefix a.Key then some (goDrop a.Key schemaPrefix.length)
          else none) := by
  rw [Annotations.schemas, schemas_foldl_general]
  simp

/-- C10: for every span `s`, `s.Name` returns the value (as a string)
of the first annotation in the span's annotation list whose key is
exactly `name`, and returns the empty string when no such annotation
exists; it is total and never considers later duplicate `name`
annotations. -/
theorem span_name_first_match (s : Span) :
    s.Name =
      ((s.Annotations.find? (fun a => a.Key == nameKey)).map (fun a => a.Value)).getD "" := by
  rw [Span.Name]
  induction s.Annotations with
  | nil => rfl
  | cons a rest ih =>
    by_cases h : a.Key = nameKey
    · simp [spanNameLoop, List.find?, h]
    · have hb : (a.Key == nameKey) = false := beq_eq_false_iff_ne.mpr h
      simp [spanNameLoop, List.find?, h, hb, ih]

/-! ### Header merging and redaction (event codec marshal side).

The functions `NewServerEvent` and `MarshalEvent` are not under `src/`;
only their test (`TestNewServerEvent` in src/unnamed/part_000) is.
Their header handling is modelled from the spec below. -/

/-- Header map read: value of the first entry with the given key. -/
def lookupHeader : List (String × String) → String → Option String
  | [], _ => none
  | (k0, v0) :: rest, k => if k0 = k then some v0 else lookupHeader rest k

/-- Header map write `m[k] = v`: replace the entry with key `k` in
place, or append a new entry. -/
def insertHeader : List (String × String) → String → String → List (String × String)
  | [], k, v => [(k, v)]
  | (k0, v0) :: rest, k, v =>
    if k0 = k then (k0, v) :: rest else (k0, v0) :: insertHeader rest k v

/-- Modelled from the spec: when an event carries two header sources
(primary headers and trailer headers), they are merged into a single
flattened map before emission; entries from the later-applied
(secondary) source overwrite entries from the primary source on key
collision. -/
def mergedHeaderList (primary secondary : List (String × String)) : List (String × String) :=
  secondary.foldl (fun acc kv => insertHeader acc kv.1 kv.2) primary

/-- Modelled from the spec: the literal redaction marker written in
place of a sensitive header value (the marker string appearing in the
test expectations is REDACTED); the original value is never
serialized. -/
def redactionMarker : String := "REDACTED"

/-- ASCII lowercasing of a header key (Go `strings.ToLower` restricted
to the ASCII keys involved). -/
def lowerStr (s : String) : String :=
  String.mk (s.data.map Char.toLower)

/-- Modelled from the spec: the fixed deny-list of sensitive header
names, matched case-insensitively; at minimum the Authorization
header. -/
def sensitiveHeaderKeys : List String := ["authorization"]

/-- A header key matches the deny-list, case-insensitively. -/
def isSensitiveHeader (k : String) : Bool :=
  sensitiveHeaderKeys.contains (lowerStr k)

/-- Modelled from the spec: the value written to a header's annotation
is the original merged value, except that a sensitive key's value is
replaced with the literal redaction marker. -/
def redactHeaderValue (k v : String) : String :=
  if isSensitiveHeader k then redactionMarker else v

/-- Modelled from the spec: the annotation value the codec emits for a
header key given the two sources — merge with secondary precedence,
then redact. -/
def headerValue (primary secondary : List (String × String)) (k : String) : Option String :=
  (lookupHeader (mergedHeaderList primary secondary) k).map (redactHeaderValue k)

/-- Modelled from the spec: one annotation per merged header key, keyed
by the dot-joined path of the map field and the entry key, holding the
(possibly redacted) entry value. -/
def headerAnnotations (path : String) (primary secondary : List (String × String)) :
    Annotations :=
  (mergedHeaderList primary secondary).map
    (fun kv => { Key := path ++ "." ++ kv.1, Value := redactHeaderValue kv.1 kv.2 })

/-- Header map of the request in TestNewServerEvent
(src/unnamed/part_000). -/
def testRequestHeaders : List (String × String) :=
  [("Authorization", "Basic seeecret"), ("Accept", "application/json")]

/-- Trailer map of the request in TestNewServerEvent
(src/unnamed/part_000). -/
def testRequestTrailer : List (String × String) :=
  [("Authorization", "Basic seeecret"), ("Connection", "close")]

theorem lookupHeader_insertHeader (hs : List (String × String)) (k k2 v : String) :
    lookupHeader (insertHeader hs k2 v) k =
      if k2 = k then some v else lookupHeader hs k := by
  induction hs with
  | nil => simp [insertHeader, lookupHeader]
  | cons kv rest ih =>
    obtain ⟨k0, v0⟩ := kv
    by_cases h0 : k0 = k2
    · subst h0
      by_cases h1 : k0 = k
      · simp [insertHeader, lookupHeader, h1]
      · simp [insertHeader, lookupHeader, h1]
    · by_cases h1 : k0 = k
      · subst h1
        have h2 : ¬ k2 = k0 := fun he => h0 he.symm
        simp [insertHeader, lookupHeader, h0, h2]
      · simp [insertHeader, lookupHeader, h0, h1, ih]

theorem lookupHeader_merged_not_mem (secondary : List (String × String)) :
    ∀ (primary : List (String × String)) (k : String),
      (∀ kv ∈ secondary, kv.1 ≠ k) →
      lookupHeader (mergedHeaderList primary secondary) k = lookupHeader primary k := by
  induction secondary with
  | nil => intro p k _; rfl
  | cons kv rest ih =>
    intro p k h
    show lookupHeader (mergedHeaderList (insertHeader p kv.1 kv.2) rest) k = _
    rw [ih _ k (fun kv2 hm => h kv2 (List.mem_cons_of_mem _ hm)),
      lookupHeader_insertHeader,
      if_neg (h kv (List.mem_cons_self _ _))]

theorem lookupHeader_merged_mem (secondary : List (String × String)) :
    ∀ (primary : List (String × String)) (k v : String),
      secondary.Pairwise (fun a b => a.1 ≠ b.1) →
      lookupHeader secondary k = some v →
      lookupHeader (mergedHeaderList primary secondary) k = some v := by
  induction secondary with
  | nil => intro p k v _ h; simp [lookupHeader] at h
  | cons kv rest ih =>
    intro p k v hp hl
    obtain ⟨k0, v0⟩ := kv
    obtain ⟨hhead, htail⟩ := List.pairwise_cons.mp hp
    by_cases h0 : k0 = k
    · rw [lookupHeader, if_pos h0] at hl
      have hnotin : ∀ kv2 ∈ rest, kv2.1 ≠ k := by
        intro kv2 hm he
        exact hhead kv2 hm (h0 ▸ he.symm) |>.elim
      show lookupHeader (mergedHeaderList (insertHeader p k0 v0) rest) k = some v
      rw [lookupHeader_merged_not_mem rest _ k hnotin, lookupHeader_insertHeader,
        if_pos h0]
      exact hl
    · rw [lookupHeader, if_neg h0] at hl
      exact ih _ k v htail hl

/-- C7: marshaling an event merges the primary and secondary (trailer)
header sources with secondary-source precedence on key collision, keys
present in only one source pass through unchanged, and any key matching
the sensitive deny-list (at minimum Authorization, case-insensitively)
is emitted with the literal redaction marker in place of the original
value; at the test's concrete headers the emitted annotations carry
Authorization = REDACTED, Accept = application/json and
Connection = close. -/
theorem marshal_header_merge_redact :
    (∀ (primary secondary : List (String × String)) (k v : String),
        secondary.Pairwise (fun a b => a.1 ≠ b.1) →
        lookupHeader secondary k = some v →
        headerValue primary secondary k = some (redactHeaderValue k v)) ∧
    (∀ (primary secondary : List (String × String)) (k v : String),
        (∀ kv ∈ secondary, kv.1 ≠ k) →
        lookupHeader primary k = some v →
        headerValue primary secondary k = some (redactHeaderValue k v)) ∧
    (∀ k v : String, isSensitiveHeader k = true → redactHeaderValue k v = redactionMarker) ∧
    (Annotations.get (headerAnnotations "Request.Headers" testRequestHeaders testRequestTrailer)
        "Request.Headers.Authorization" = some "REDACTED" ∧
      Annotations.get (headerAnnotations "Request.Headers" testRequestHeaders testRequestTrailer)
        "Request.Headers.Accept" = some "application/json" ∧
      Annotations.get (headerAnnotations "Request.Headers" testRequestHeaders testRequestTrailer)
        "Request.Headers.Connection" = some "close") := by
  refine ⟨?_, ?_, ?_, ?_⟩
  · intro primary secondary k v hp hl
    rw [headerValue, lookupHeader_merged_mem secondary primary k v hp hl]
    rfl
  · intro primary secondary k v hn hl
    rw [headerValue, lookupHeader_merged_not_mem secondary primary k hn, hl]
    rfl
  · intro k v h
    rw [redactHeaderValue, if_pos h]
  · refine ⟨?_, ?_, ?_⟩ <;> rfl

/-- Witness for C7: a key present only in the secondary source
(Connection) is emitted with that source's value. -/
theorem marshal_header_merge_redact_witness :
    headerValue testRequestHeaders testRequestTrailer "Connection" =
      some (redactHeaderValue "Connection" "close") :=
  marshal_header_merge_redact.1 testRequestHeaders testRequestTrailer "Connection" "close"
    (by decide) (by decide)

/-! ### Typed unmarshal of a ServerEvent (event codec decode side).

`UnmarshalEvent` and the `ServerEvent` type are not under `src/`; only
their test (`TestServerEvent_unmarshal` in src/unnamed/part_000) is.
The decode contract is modelled from the spec: dot-joined keys are
walked into nested fields, a segment beyond the last declared struct
populates a map field, scalars invert their marshal encoding (decimal
integers error on a non-numeric value), and any annotation whose key is
not a known field path — including the empty key and schema markers —
is silently ignored. Time-valued fields are modelled by their RFC 3339
string form, decoded verbatim. -/

/-- Decimal digit accumulation for integer decode; fails on the first
non-digit character. -/
def decDigits : List Char → Nat → Option Nat
  | [], acc => some acc
  | c :: cs, acc =>
    if 48 ≤ c.toNat ∧ c.toNat ≤ 57 then decDigits cs (acc * 10 + (c.toNat - 48))
    else none

/-- Base-10 integer decode with optional leading minus sign; the empty
string and non-digit content fail. -/
def parseDecInt (s : String) : Option Int :=
  match s.data with
  | [] => none
  | '-' :: rest =>
    match rest with
    | [] => none
    | _ => (decDigits rest 0).map (fun n => -(n : Int))
  | l => (decDigits l 0).map (fun n => (n : Int))

/-- Modelled from the spec: the request half of a ServerEvent (method,
proto, URI, host, remote address, content length, headers). -/
structure RequestInfo where
  Method : String := ""
  Proto : String := ""
  URI : String := ""
  Host : String := ""
  RemoteAddr : String := ""
  ContentLength : Int := 0
  Headers : List (String × String) := []
deriving DecidableEq, Repr

/-- Modelled from the spec: the response half of a ServerEvent (status
code, content length, headers). -/
structure ResponseInfo where
  StatusCode : Int := 0
  ContentLength : Int := 0
  Headers : List (String × String) := []
deriving DecidableEq, Repr

/-- Modelled from the spec: the HTTPServer-schema event (request,
response, user, route, receive/send timestamps); timestamps are
modelled by their RFC 3339 string form, whose zero value is the
zero-time literal. -/
structure ServerEvent where
  Request : RequestInfo := {}
  Response : ResponseInfo := {}
  Route : String := ""
  User : String := ""
  ServerRecv : String := "0001-01-01T00:00:00Z"
  ServerSend : String := "0001-01-01T00:00:00Z"
deriving DecidableEq, Repr

/-- Modelled from the spec: apply one annotation to a ServerEvent under
decode — known field paths are populated (integers parsed, a parse
failure is an error), header paths populate the map field keyed by the
remaining suffix, and every other key leaves the event unchanged. -/
def applyServerEventAnn (e : ServerEvent) (a : Annotation) : Except String ServerEvent :=
  if a.Key = "User" then .ok { e with User := a.Value }
  else if a.Key = "Route" then .ok { e with Route := a.Value }
  else if a.Key = "ServerRecv" then .ok { e with ServerRecv := a.Value }
  else if a.Key = "ServerSend" then .ok { e with ServerSend := a.Value }
  else if a.Key = "Request.Method" then
    .ok { e with Request := { e.Request with Method := a.Value } }
  else if a.Key = "Request.Proto" then
    .ok { e with Request := { e.Request with Proto := a.Value } }
  else if a.Key = "Request.URI" then
    .ok { e with Request := { e.Request with URI := a.Value } }
  else if a.Key = "Request.Host" then
    .ok { e with Request := { e.Request with Host := a.Value } }
  else if a.Key = "Request.RemoteAddr" then
    .ok { e with Request := { e.Request with RemoteAddr := a.Value } }
  else if a.Key = "Request.ContentLength" then
    match parseDecInt a.Value with
    | some n => .ok { e with Request := { e.Request with ContentLength := n } }
    | none => .error "bad integer value"
  else if a.Key = "Response.StatusCode" then
    match parseDecInt a.Value with
    | some n => .ok { e with Response := { e.Response with StatusCode := n } }
    | none => .error "bad integer value"
  else if a.Key = "Response.ContentLength" then
    match parseDecInt a.Value with
    | some n => .ok { e with Response := { e.Response with ContentLength := n } }
    | none => .error "bad integer value"
  else if goHasPrefix "Request.Headers." a.Key then
    .ok { e with Request :=
      { e.Request with
        Headers := insertHeader e.Request.Headers (goDrop a.Key 16) a.Value } }
  else if goHasPrefix "Response.Headers." a.Key then
    .ok { e with Response :=
      { e.Response with
        Headers := insertHeader e.Response.Headers (goDrop a.Key 17) a.Value } }
  else .ok e

/-- The keys `applyServerEventAnn` recognizes as field paths of a
ServerEvent. -/
def recognizedServerEventKey (k : String) : Bool :=
  k = "User" || k = "Route" || k = "ServerRecv" || k = "ServerSend" ||
  k = "Request.Method" || k = "Request.Proto" || k = "Request.URI" ||
  k = "Request.Host" || k = "Request.RemoteAddr" || k = "Request.ContentLength" ||
  k = "Response.StatusCode" || k = "Response.ContentLength" ||
  goHasPrefix "Request.Headers." k || goHasPrefix "Response.Headers." k

/-- Fold of `applyServerEventAnn` over an annotation list, stopping at
the first error. -/
def unmarshalServerEventAux : ServerEvent → Annotations → Except String ServerEvent
  | e, [] => .ok e
  | e, a :: rest =>
    match applyServerEventAnn e a with
    | .ok e2 => unmarshalServerEventAux e2 rest
    | .error msg => .error msg

/-- Modelled from the spec: decode an annotation list into a
ServerEvent starting from the zero value. -/
def UnmarshalServerEvent (as : Annotations) : Except String ServerEvent :=
  unmarshalServerEventAux {} as

/-- Annotation list of TestServerEvent_unmarshal (src/unnamed/part_000),
in the order of the Go map literal; it contains an empty-string key and
an unrelated extra schema marker. -/
def testUnmarshalAnns : Annotations :=
  [{ Key := "", Value := "/foo" },
   { Key := "_schema:name", Value := "" },
   { Key := "User", Value := "u" },
   { Key := "ServerRecv", Value := "0001-01-01T00:00:00Z" },
   { Key := "ServerSend", Value := "0001-01-01T00:00:00Z" },
   { Key := "Request.Host", Value := "example.com" },
   { Key := "Request.RemoteAddr", Value := "" },
   { Key := "Request.ContentLength", Value := "0" },
   { Key := "Request.Method", Value := "GET" },
   { Key := "Request.URI", Value := "/foo" },
   { Key := "Request.Proto", Value := "HTTP/1.1" },
   { Key := "Response.Headers.Span-Id", Value := "15409ac1437f45e4/118217713a143137" },
   { Key := "Response.ContentLength", Value := "0" },
   { Key := "Response.StatusCode", Value := "200" },
   { Key := "Route", Value := "r" },
   { Key := "_schema:HTTPServer", Value := "" }]

/-- Expected decode result of TestServerEvent_unmarshal
(src/unnamed/part_000). -/
def wantUnmarshalEvent : ServerEvent :=
  { Request :=
      { Host := "example.com", Method := "GET", URI := "/foo", Proto := "HTTP/1.1",
        RemoteAddr := "", ContentLength := 0, Headers := [] },
    Response :=
      { Headers := [("Span-Id", "15409ac1437f45e4/118217713a143137")],
        StatusCode := 200, ContentLength := 0 },
    Route := "r", User := "u",
    ServerRecv := "0001-01-01T00:00:00Z", ServerSend := "0001-01-01T00:00:00Z" }

theorem applyServerEventAnn_unrecognized (e : ServerEvent) (a : Annotation)
    (h : recognizedServerEventKey a.Key = false) :
    applyServerEventAnn e a = .ok e := by
  rw [recognizedServerEventKey] at h
  simp only [Bool.or_eq_false_iff, decide_eq_false_iff_not] at h
  obtain ⟨⟨⟨⟨⟨⟨⟨⟨⟨⟨⟨⟨⟨h1, h2⟩, h3⟩, h4⟩, h5⟩, h6⟩, h7⟩, h8⟩, h9⟩, h10⟩, h11⟩, h12⟩, h13⟩, h14⟩ := h
  rw [applyServerEventAnn, if_neg h1, if_neg h2, if_neg h3, if_neg h4, if_neg h5,
    if_neg h6, if_neg h7, if_neg h8, if_neg h9, if_neg h10, if_neg h11, if_neg h12]
  rw [if_neg (by simp [h13]), if_neg (by simp [h14])]

/-- C8: for every annotation list containing annotations whose keys do
not correspond to any declared field path of the target event type —
including the empty-string key and schema-marker keys for unrelated or
mismatched schemas — unmarshal succeeds without error exactly as it
does without them, leaving all unrecognized annotations without effect
on the result; on the test's annotation list (which contains the empty
key and an unrelated `_schema:name` marker) decode succeeds and
populates exactly the recognized field paths. -/
theorem unmarshal_ignores_unknown_keys :
    (∀ (pre post : Annotations) (a : Annotation) (e0 : ServerEvent),
        recognizedServerEventKey a.Key = false →
        unmarshalServerEventAux e0 (pre ++ a :: post) =
          unmarshalServerEventAux e0 (pre ++ post)) ∧
    UnmarshalServerEvent testUnmarshalAnns = .ok wantUnmarshalEvent := by
  constructor
  · intro pre post a e0 h
    induction pre generalizing e0 with
    | nil =>
      simp only [List.nil_append, unmarshalServerEventAux,
        applyServerEventAnn_unrecognized e0 a h]
    | cons b rest ih =>
      simp only [List.cons_append, unmarshalServerEventAux]
      cases applyServerEventAnn e0 b with
      | ok e2 => exact ih e2
      | error msg => rfl
  · rfl

/-- Witness for C8: inserting an unrelated schema-marker annotation
does not change the decode result. -/
theorem unmarshal_ignores_unknown_keys_witness :
    unmarshalServerEventAux {}
        ([{ Key := "User", Value := "u" }] ++ { Key := "_schema:name", Value := "" } :: []) =
      unmarshalServerEventAux {} ([{ Key := "User", Value := "u" }] ++ []) :=
  unmarshal_ignores_unknown_keys.1 [{ Key := "User", Value := "u" }] []
    { Key := "_schema:name", Value := "" } {} (by decide)
